import Mathlib

/-!
Verification development for the Validity VFS0097 libfprint driver
(src/libfprint/drivers/vfs0097/vfs0097.c).

Shallow embedding conventions:
- Byte buffers are `List Nat` (each element a byte value).
- The OpenSSL/NSS primitives (HMAC-SHA256, SHA-256, AES-256-CBC decryption,
  EC key construction and checking, ECDSA verification) are external
  libraries, so they are abstracted as fields of `CryptoPrims`; every
  theorem quantifies over them (with explicit hypotheses such as
  "HMAC returns 32 bytes" where the construction relies on it).
- The constants PRE_KEY, LABEL, SIGN_KEY, LABEL_SIGN, DEVICE_KEY_X/Y and the
  six INIT_SEQUENCE_MSG payloads live in vfs0097.h, which is not part of the
  provided sources; their values are opaque, so they are fields of `Consts`
  and every theorem quantifies over them (no claim depends on their values).
- The `FpiByteReader` accessors return a boolean that the C code ignores;
  on a too-short buffer the C reads stale/uninitialized data (undefined
  behavior).  The model makes the corresponding reads total by slicing with
  `List.drop`/`List.take` (yielding short or empty slices) and, in the block
  parser, by stopping when a read cannot be satisfied.  All claims are
  settled on inputs where every read succeeds, so this choice is inert.
- The fpi_ssm state machines are cooperative and single threaded: a state
  handler either starts a USB exchange (suspending until the response is
  read), advances, marks the machine failed (which is propagated to the
  open-completion callback), or returns without doing anything (in which
  case no further callback fires and the machine stalls).  `runInitGo`
  replays this scheduling against a script of responses.
-/

namespace Vfs0097

/-- Little-endian interpretation of a byte list as a natural number
(models BN_lebin2bn and fpi_byte_reader_get_uintNN_le). -/
def leNat (l : List Nat) : Nat := l.foldr (fun b acc => b + 256 * acc) 0

/-- Two-byte little-endian encoding of a 16-bit value. -/
def le16 (n : Nat) : List Nat := [n % 256, n / 256 % 256]

/-- Four-byte little-endian encoding of a 32-bit value. -/
def le32 (n : Nat) : List Nat :=
  [n % 256, n / 256 % 256, n / 65536 % 256, n / 16777216 % 256]

/-- An OpenSSL EC_KEY over NID_X9_62_prime256v1: affine public coordinates
and an optional private scalar. -/
structure ECKey where
  x : Nat
  y : Nat
  d : Option Nat
deriving DecidableEq, Repr

/-- The driver session state (the fields of FpiDeviceVfs0097 that the
initialization engine reads and writes). -/
structure Session where
  seed : List Nat
  buffer : List Nat
  certificate : Option (List Nat)
  private_key : Option ECKey
  ecdh_q : Option ECKey
deriving DecidableEq, Repr

/-- Abstracted cryptographic primitives (OpenSSL/NSS are external
collaborators; see the module docstring).  The three `dec*Ok` flags model
the success of EVP_DecryptInit / EVP_DecryptUpdate / EVP_DecryptFinal,
`deviceKeySetOk` models EC_KEY_set_public_key_affine_coordinates on the
hardcoded manufacturer key, and `ecdsaVerify` returns the ECDSA_verify
status (1 success, 0 cryptographic rejection, negative on error). -/
structure CryptoPrims where
  hmac : List Nat → List Nat → List Nat
  sha256 : List Nat → List Nat
  aesDecrypt : List Nat → List Nat → List Nat → List Nat
  setAffineOk : Nat → Nat → Bool
  setPrivOk : Nat → Bool
  checkKeyOk : Nat → Nat → Nat → Bool
  deviceKeySetOk : Bool
  ecdsaVerify : List Nat → List Nat → Int
  decInitOk : Bool
  decUpdateOk : Bool
  decFinalOk : Bool

/-- Constants from vfs0097.h (not part of src/); all opaque byte strings.
Every theorem quantifies over their values. -/
structure Consts where
  PRE_KEY : List Nat
  LABEL : List Nat
  SIGN_KEY : List Nat
  LABEL_SIGN : List Nat
  msg1 : List Nat
  msg2 : List Nat
  msg3 : List Nat
  msg4 : List Nat
  msg5 : List Nat
  msg6 : List Nat

/-- Warnings and errors emitted through fp_warn/fp_err by the parsing and
validation functions (observable log events; positions and printf details
are dropped). -/
inductive LogEvent
  | hashMismatch (id : Nat)
  | unhandledBlock (id : Nat)
  | unknownKeyFormat
  | pairedElsewhere
  | evpFailure
  | ecKeyFailure
  | setCoordsFailed
  | expectedZero
  | untrustedDevice
  | verifyMachineryError
deriving DecidableEq, Repr

/-- One iteration of the while loop of PRF_SHA256 (vfs0097.c:192-207),
made structurally recursive on a fuel that the wrapper instantiates with
the requested length (an upper bound on the iteration count, since every
iteration emits at least one byte).  `A` holds the current A(i) (the first
SHA256_DIGEST_LENGTH bytes of the C buffer `A`); the loop appends
HMAC(secret, A(i) ++ label ++ seed) truncated to MIN(remaining, 32) and
steps A(i+1) = HMAC(secret, A(i)). -/
def prfLoopF (hmac : List Nat → List Nat → List Nat)
    (secret label seed : List Nat) : Nat → List Nat → Nat → List Nat
  | 0, _, _ => []
  | fuel + 1, A, remaining =>
    if remaining = 0 then []
    else
      let P := hmac secret (A ++ label ++ seed)
      let A2 := hmac secret A
      let size := min remaining 32
      P.take size ++ prfLoopF hmac secret label seed fuel A2 (remaining - size)

/-- PRF_SHA256 (vfs0097.c:161-210): A(0) = label ++ seed is hashed once to
A(1) before the loop; then the loop expands to `len` output bytes. -/
def PRF_SHA256 (hmac : List Nat → List Nat → List Nat)
    (secret label seed : List Nat) (len : Nat) : List Nat :=
  prfLoopF hmac secret label seed len (hmac secret (label ++ seed)) len

/-- Reference definition following the spec's words: A(0) = label ++ seed,
A(i) = HMAC(secret, A(i-1)). -/
def prfSpecA (hmac : List Nat → List Nat → List Nat)
    (secret label seed : List Nat) : Nat → List Nat
  | 0 => label ++ seed
  | i + 1 => hmac secret (prfSpecA hmac secret label seed i)

/-- Reference definition following the spec's words: the concatenation of
HMAC(secret, A(i) ++ label ++ seed) for n consecutive indices starting
at i. -/
def prfSpecConcat (hmac : List Nat → List Nat → List Nat)
    (secret label seed : List Nat) : Nat → Nat → List Nat
  | _, 0 => []
  | i, n + 1 =>
    hmac secret (prfSpecA hmac secret label seed i ++ label ++ seed) ++
      prfSpecConcat hmac secret label seed (i + 1) n

/-- Reference PRF following the spec's words: the concatenation of
HMAC(secret, A(i) ++ label ++ seed) for i = 1, 2, ... truncated to exactly
`len` bytes (enough blocks are generated to cover `len`). -/
def PRF_spec (hmac : List Nat → List Nat → List Nat)
    (secret label seed : List Nat) (len : Nat) : List Nat :=
  (prfSpecConcat hmac secret label seed 1 ((len + 31) / 32)).take len

/-- AES_MASTER_KEY = PRF(PRE_KEY, LABEL, seed) (vfs0097.c:218-221). -/
def aesMasterKey (P : CryptoPrims) (C : Consts) (seed : List Nat) : List Nat :=
  PRF_SHA256 P.hmac C.PRE_KEY C.LABEL seed 32

/-- VALIDATION_KEY = PRF(AES_MASTER_KEY, LABEL_SIGN, SIGN_KEY)
(vfs0097.c:223-226). -/
def validationKey (P : CryptoPrims) (C : Consts) (seed : List Nat) : List Nat :=
  PRF_SHA256 P.hmac (aesMasterKey P C seed) C.LABEL_SIGN C.SIGN_KEY 32

/-- The bytes the unwrapper feeds to HMAC when recomputing the trailing
signature (vfs0097.c:239): `encrypted = &body[1]` with length
`size - 1 - SHA256_DIGEST_LENGTH`, i.e. everything after the 1-byte format
byte and before the trailing 32-byte signature (the 16-byte IV region is
part of this range). -/
def macInput (body : List Nat) : List Nat :=
  (body.drop 1).take (body.length - 1 - 32)

/-- The bytes the claim says the signature covers: the ciphertext minus the
trailing 32-byte signature and minus the 16-byte IV region.  Clearly named
reference definition following the claim's words, for comparison with
`macInput`. -/
def macInputClaimed (body : List Nat) : List Nat :=
  (body.drop 17).take (body.length - 1 - 16 - 32)

/-- The stored trailing signature, `hash = &body[size - 32]`
(vfs0097.c:236). -/
def storedMac (body : List Nat) : List Nat :=
  body.drop (body.length - 32)

/-- Plaintext produced by the AES-256-CBC decryption (vfs0097.c:252-262):
key = AES_MASTER_KEY, IV = first 16 bytes after the format byte, input =
0x70 bytes starting at `encrypted + 0x10`. -/
def unwrapPlain (P : CryptoPrims) (C : Consts) (seed body : List Nat) : List Nat :=
  P.aesDecrypt (aesMasterKey P C seed) ((body.drop 1).take 16)
    ((body.drop 17).take 112)

/-- X coordinate decoded from the plaintext (vfs0097.c:278). -/
def unwrapX (P : CryptoPrims) (C : Consts) (seed body : List Nat) : Nat :=
  leNat ((unwrapPlain P C seed body).take 32)

/-- Y coordinate decoded from the plaintext (vfs0097.c:279). -/
def unwrapY (P : CryptoPrims) (C : Consts) (seed body : List Nat) : Nat :=
  leNat (((unwrapPlain P C seed body).drop 32).take 32)

/-- Private scalar decoded from the plaintext (vfs0097.c:280). -/
def unwrapD (P : CryptoPrims) (C : Consts) (seed body : List Nat) : Nat :=
  leNat (((unwrapPlain P C seed body).drop 64).take 32)

/-- Conjunction of every check init_private_key performs before installing
the key (format byte, trailing signature, the three EVP decryption steps,
and the three EC_KEY construction checks). -/
def unwrapChecks (P : CryptoPrims) (C : Consts) (seed body : List Nat) : Bool :=
  (body.getD 0 0 == 2) &&
  (P.hmac (validationKey P C seed) (macInput body) == storedMac body) &&
  P.decInitOk && P.decUpdateOk && P.decFinalOk &&
  P.setAffineOk (unwrapX P C seed body) (unwrapY P C seed body) &&
  P.setPrivOk (unwrapD P C seed body) &&
  P.checkKeyOk (unwrapX P C seed body) (unwrapY P C seed body)
    (unwrapD P C seed body)

/-- init_private_key (vfs0097.c:212-316): derives the keys, checks the
format byte and the trailing HMAC, decrypts, decodes X/Y/D and installs the
key pair only if every EC_KEY construction step succeeds.  Every early
return leaves the session untouched and only emits a warning/error log. -/
def init_private_key (P : CryptoPrims) (C : Consts) (s : Session)
    (body : List Nat) : Session × List LogEvent :=
  if body.getD 0 0 ≠ 2 then (s, [LogEvent.unknownKeyFormat])
  else if P.hmac (validationKey P C s.seed) (macInput body) ≠ storedMac body then
    (s, [LogEvent.pairedElsewhere])
  else if ¬ P.decInitOk then (s, [LogEvent.evpFailure])
  else if ¬ P.decUpdateOk then (s, [LogEvent.evpFailure])
  else if ¬ P.decFinalOk then (s, [LogEvent.evpFailure])
  else
    let x := unwrapX P C s.seed body
    let y := unwrapY P C s.seed body
    let d := unwrapD P C s.seed body
    if ¬ P.setAffineOk x y then (s, [LogEvent.ecKeyFailure])
    else if ¬ P.setPrivOk d then (s, [LogEvent.ecKeyFailure])
    else if ¬ P.checkKeyOk x y d then (s, [LogEvent.ecKeyFailure])
    else ({ s with private_key := some ⟨x, y, some d⟩ }, [])

/-- X coordinate of the ECDH block, 0x20 bytes at offset 0x08
(vfs0097.c:328-329, 333). -/
def ecdhX (body : List Nat) : Nat := leNat ((body.drop 8).take 32)

/-- Y coordinate of the ECDH block, 0x20 bytes at offset 0x4c
(vfs0097.c:330-331, 334). -/
def ecdhY (body : List Nat) : Nat := leNat ((body.drop 76).take 32)

/-- Signature length, 4 bytes little endian at offset KEY_SIZE = 0x90
(vfs0097.c:356-358). -/
def ecdhSigLen (body : List Nat) : Nat := leNat ((body.drop 144).take 4)

/-- Signature bytes following the length field (vfs0097.c:359). -/
def ecdhSig (body : List Nat) : List Nat :=
  (body.drop 148).take (ecdhSigLen body)

/-- check_ecdh (vfs0097.c:318-396): parses X/Y, installs the session ECDH
public key as soon as the affine-coordinate construction succeeds, then
reads the signature, warns about non-zero padding bytes (one warning per
non-zero byte; positions are dropped in the model), and finally verifies
the ECDSA signature of the first 0x90 bytes against the hardcoded
manufacturer key — every verification outcome is only logged. -/
def check_ecdh (P : CryptoPrims) (C : Consts) (s : Session)
    (body : List Nat) : Session × List LogEvent :=
  let x := ecdhX body
  let y := ecdhY body
  if ¬ P.setAffineOk x y then (s, [LogEvent.setCoordsFailed])
  else
    let s2 := { s with ecdh_q := some ⟨x, y, none⟩ }
    let zeroWarns :=
      ((body.drop (148 + ecdhSigLen body)).filter (fun b => b ≠ 0)).map
        (fun _ => LogEvent.expectedZero)
    if ¬ P.deviceKeySetOk then (s2, zeroWarns ++ [LogEvent.setCoordsFailed])
    else
      let v := P.ecdsaVerify (P.sha256 (body.take 144)) (ecdhSig body)
      (s2, zeroWarns ++
        (if v = 0 then [LogEvent.untrustedDevice]
         else if v < 0 then [LogEvent.verifyMachineryError]
         else []))

/-- Dispatch on the block identifier (the switch at vfs0097.c:444-467):
ids 0-2 are ignored, 3 copies the certificate, 4 unwraps the private key,
6 validates the ECDH block, anything else is logged as unhandled. -/
def dispatchBlock (P : CryptoPrims) (C : Consts) (s : Session)
    (id : Nat) (body : List Nat) : Session × List LogEvent :=
  if id = 0 ∨ id = 1 ∨ id = 2 then (s, [])
  else if id = 3 then ({ s with certificate := some body }, [])
  else if id = 4 then init_private_key P C s body
  else if id = 6 then check_ecdh P C s body
  else (s, [LogEvent.unhandledBlock id])

/-- The while loop of init_keys (vfs0097.c:424-468), structurally recursive
on a fuel that the wrapper instantiates with the payload length (an upper
bound on the iteration count, since every iteration consumes at least four
bytes).  Each iteration reads a 2-byte id and 2-byte body size, breaks on
id 0xffff, reads the 32-byte hash and the body, skips the block (with a
warning) when the recomputed SHA-256 differs from the stored hash, and
otherwise dispatches on the id.  A read that cannot be satisfied stops the
loop (the C code would read stale data there; see the module docstring).
Returns the final session, the accumulated log, and the unconsumed
remainder of the input. -/
def parseBlocksGo (P : CryptoPrims) (C : Consts) :
    Nat → Session → List LogEvent → List Nat →
      Session × List LogEvent × List Nat
  | _, s, log, [] => (s, log, [])
  | 0, s, log, data => (s, log, data)
  | fuel + 1, s, log, b0 :: b1 :: b2 :: b3 :: rest2 =>
    if b0 + 256 * b1 = 65535 then (s, log, rest2)
    else if rest2.length < 32 + (b2 + 256 * b3) then
      (s, log, b0 :: b1 :: b2 :: b3 :: rest2)
    else if P.sha256 ((rest2.drop 32).take (b2 + 256 * b3)) = rest2.take 32 then
      parseBlocksGo P C fuel
        (dispatchBlock P C s (b0 + 256 * b1)
          ((rest2.drop 32).take (b2 + 256 * b3))).1
        (log ++ (dispatchBlock P C s (b0 + 256 * b1)
          ((rest2.drop 32).take (b2 + 256 * b3))).2)
        (rest2.drop (32 + (b2 + 256 * b3)))
    else
      parseBlocksGo P C fuel s
        (log ++ [LogEvent.hashMismatch (b0 + 256 * b1)])
        (rest2.drop (32 + (b2 + 256 * b3)))
  | _ + 1, s, log, data => (s, log, data)

/-- init_keys (vfs0097.c:406-469): skip 2 bytes, read the 4-byte little
endian payload size, skip 2 more bytes, `g_assert` that the remaining bytes
exactly equal the declared size (modelled as an `Except.error`, since
g_assert aborts the process), then run the block loop over the payload.
A buffer too short for the 8-byte header is also modelled as a fault (the
C code would read uninitialized data there). -/
def init_keys (P : CryptoPrims) (C : Consts) (s : Session) :
    Except String (Session × List LogEvent × List Nat) :=
  if s.buffer.length < 8 then Except.error "malformed header"
  else
    let size := leNat ((s.buffer.drop 2).take 4)
    if s.buffer.length - 8 = size then
      Except.ok (parseBlocksGo P C (s.buffer.length - 8) s [] (s.buffer.drop 8))
    else Except.error "assertion failed: remaining == size"

/-- States of the initialization state machine (INIT_SM, vfs0097.c:555). -/
inductive InitState
  | SEND_INIT_1
  | CHECK_INIT
  | SEND_INIT_2
  | GET_PARTITION_HEADER
  | SEND_INIT_4
  | GET_FLASH_INFO
  | READ_FLASH_TLS_DATA
  | INIT_KEYS
  | HANDSHAKE
deriving DecidableEq, Repr

/-- Linear successor of each state (fpi_ssm advances to the next state when
a sub-machine completes or fpi_ssm_next_state is called). -/
def nextState : InitState → Option InitState
  | InitState.SEND_INIT_1 => some InitState.CHECK_INIT
  | InitState.CHECK_INIT => some InitState.SEND_INIT_2
  | InitState.SEND_INIT_2 => some InitState.GET_PARTITION_HEADER
  | InitState.GET_PARTITION_HEADER => some InitState.SEND_INIT_4
  | InitState.SEND_INIT_4 => some InitState.GET_FLASH_INFO
  | InitState.GET_FLASH_INFO => some InitState.READ_FLASH_TLS_DATA
  | InitState.READ_FLASH_TLS_DATA => some InitState.INIT_KEYS
  | InitState.INIT_KEYS => some InitState.HANDSHAKE
  | InitState.HANDSHAKE => none

/-- What one invocation of the init_ssm handler does at a given state with
the given response buffer. -/
inductive SsmAction
  | execCommand (msg : List Nat)
  | warnBreak (msg : String)
  | markFailed (err : String)
  | runInitKeys
  | startHandshake
deriving DecidableEq, Repr

/-- init_ssm (vfs0097.c:550-615).  At CHECK_INITIALIZED (here `CHECK_INIT`):
a 38-byte response whose last byte is not 0x07 marks the machine failed; a
38-byte response ending in 0x07 falls out of the `if` and — because there is
no `break` between the cases — falls through into the SEND_INIT_2 case and
issues INIT_SEQUENCE_MSG2; any other length hits the `else` branch, which
logs "Unknown reply at init" and `break`s out of the switch without
advancing or failing. -/
def init_ssm_step (C : Consts) (st : InitState) (buffer : List Nat) : SsmAction :=
  match st with
  | InitState.SEND_INIT_1 => SsmAction.execCommand C.msg1
  | InitState.CHECK_INIT =>
    if buffer.length = 38 then
      if buffer.getD (buffer.length - 1) 0 ≠ 7 then
        SsmAction.markFailed "Device is not initialized"
      else
        SsmAction.execCommand C.msg2
    else
      SsmAction.warnBreak "Unknown reply at init"
  | InitState.SEND_INIT_2 => SsmAction.execCommand C.msg2
  | InitState.GET_PARTITION_HEADER => SsmAction.execCommand C.msg3
  | InitState.SEND_INIT_4 => SsmAction.execCommand C.msg4
  | InitState.GET_FLASH_INFO => SsmAction.execCommand C.msg5
  | InitState.READ_FLASH_TLS_DATA => SsmAction.execCommand C.msg6
  | InitState.INIT_KEYS => SsmAction.runInitKeys
  | InitState.HANDSHAKE => SsmAction.startHandshake

/-- Observable outcome of running the initialization machine: normal
completion, fpi_ssm_mark_failed with an error (delivered to the
open-completion callback), a stall (the handler returned without scheduling
anything, so no callback ever fires again), or a g_assert abort. -/
inductive RunResult
  | ok (s : Session)
  | failed (err : String)
  | stalled (st : InitState) (s : Session)
  | fault (err : String)
deriving DecidableEq, Repr

/-- Cooperative scheduler for init_ssm over a script of USB responses (one
response per issued command, in order).  An exec_command sub-machine writes
the command, reads the response into the session buffer and then lets the
parent advance to its next state; INIT_KEYS runs the block parser and
advances; the handshake sub-machine is a scaffold whose states advance
unconditionally, so starting it completes the machine.  An empty script
leaves the machine waiting on the transport (modelled as a stall). -/
def runInitGo (P : CryptoPrims) (C : Consts) :
    Nat → InitState → Session → List (List Nat) → RunResult
  | 0, st, s, _ => RunResult.stalled st s
  | fuel + 1, st, s, script =>
    match init_ssm_step C st s.buffer with
    | SsmAction.markFailed err => RunResult.failed err
    | SsmAction.warnBreak _ => RunResult.stalled st s
    | SsmAction.execCommand _ =>
      match script with
      | [] => RunResult.stalled st s
      | r :: script2 =>
        match nextState st with
        | none => RunResult.ok s
        | some st2 => runInitGo P C fuel st2 { s with buffer := r } script2
    | SsmAction.runInitKeys =>
      match init_keys P C s with
      | Except.error e => RunResult.fault e
      | Except.ok (s2, _, _) =>
        match nextState st with
        | none => RunResult.ok s2
        | some st2 => runInitGo P C fuel st2 s2 script
    | SsmAction.startHandshake => RunResult.ok s

/-- Run the initialization machine from SEND_INIT_1 (fpi_ssm_start at
vfs0097.c:693-694); ten units of fuel cover the nine-state chain. -/
def runInit (P : CryptoPrims) (C : Consts) (s : Session)
    (script : List (List Nat)) : RunResult :=
  runInitGo P C 10 InitState.SEND_INIT_1 s script

/-- dev_open (vfs0097.c:637-695), restricted to the modelled core: fail
immediately when the seed was never initialized, otherwise allocate the
response buffer and start the initialization machine; the RunResult is what
reaches fpi_device_open_complete through dev_open_callback. -/
def dev_open (P : CryptoPrims) (C : Consts) (s : Session)
    (script : List (List Nat)) : RunResult :=
  if s.seed.isEmpty then RunResult.failed "Seed value is not initialized"
  else runInit P C { s with buffer := [] } script

/-- clear_data (vfs0097.c:618-626), called from dev_close: releases the
seed, buffer, certificate, private key and ECDH key. -/
def clear_data (s : Session) : Session :=
  { s with seed := [], buffer := [], certificate := none,
           private_key := none, ecdh_q := none }

/-- The seed constant set at construction (vfs0097.c:818): the char array
"VirtualBox\0" "0" including its terminating NUL, 13 bytes. -/
def vfs0097_seed : List Nat :=
  [86, 105, 114, 116, 117, 97, 108, 66, 111, 120, 0, 48, 0]

/-- Host machine identifiers that the commented-out DMI code would read
(product name and serial); kept as an explicit input to state host
independence. -/
structure HostInfo where
  productName : List Nat
  productSerial : List Nat

/-- fpi_device_vfs0097_init (vfs0097.c:815-843): the DMI-reading code is
commented out in the source, so the host identifiers are ignored and the
seed is always the fixed 13-byte VirtualBox string. -/
def fpi_device_vfs0097_init (_host : HostInfo) : Session :=
  { seed := vfs0097_seed, buffer := [], certificate := none,
    private_key := none, ecdh_q := none }

/-- An abstract flash block: identifier, stored hash, body. -/
structure Block where
  id : Nat
  hash : List Nat
  body : List Nat
deriving DecidableEq, Repr

/-- Well-formedness of a block for serialization: the id fits in two bytes
and is not the 0xffff terminator, the hash is 32 bytes, and the body length
fits in two bytes. -/
def Block.WF (b : Block) : Prop :=
  b.id < 65535 ∧ b.hash.length = 32 ∧ b.body.length < 65536

instance (b : Block) : Decidable b.WF := by
  unfold Block.WF
  infer_instance

/-- Serialization of one block in the flash container format. -/
def encodeBlock (b : Block) : List Nat :=
  le16 b.id ++ le16 b.body.length ++ b.hash ++ b.body

/-- Serialization of a block sequence. -/
def encodeBlocks (bs : List Block) : List Nat :=
  (bs.map encodeBlock).flatten

/-- Test crypto primitives used to instantiate witnesses and
counterexamples on concrete inputs: hmac takes the first 32 bytes of
data ++ key padded with zeros (always 32 bytes long), sha256 is 32 copies
of the input length mod 256, AES decryption is the identity on the
ciphertext, every EC construction succeeds, and ECDSA verification reports
cryptographic rejection. -/
def testP : CryptoPrims :=
  { hmac := fun k d => (d ++ k ++ List.replicate 32 0).take 32
    sha256 := fun b => List.replicate 32 (b.length % 256)
    aesDecrypt := fun _ _ ct => ct
    setAffineOk := fun _ _ => true
    setPrivOk := fun _ => true
    checkKeyOk := fun _ _ _ => true
    deviceKeySetOk := true
    ecdsaVerify := fun _ _ => 0
    decInitOk := true
    decUpdateOk := true
    decFinalOk := true }

/-- Concrete constants used to instantiate witnesses and counterexamples
(the claims do not depend on the real values in vfs0097.h). -/
def testC : Consts :=
  { PRE_KEY := [1], LABEL := [2], SIGN_KEY := [3], LABEL_SIGN := [4]
    msg1 := [11], msg2 := [22], msg3 := [33], msg4 := [44]
    msg5 := [55], msg6 := [66] }

/-- A fresh session with a one-byte seed, for concrete runs. -/
def sess0 : Session :=
  { seed := [7], buffer := [], certificate := none,
    private_key := none, ecdh_q := none }

/-- Equality of Except values is decidable when both components are. -/
instance {e a : Type} [DecidableEq e] [DecidableEq a] : DecidableEq (Except e a) :=
  fun x y =>
  match x, y with
  | Except.ok u, Except.ok v =>
    if h : u = v then isTrue (by rw [h])
    else isFalse (by intro hc; cases hc; exact h rfl)
  | Except.error u, Except.error v =>
    if h : u = v then isTrue (by rw [h])
    else isFalse (by intro hc; cases hc; exact h rfl)
  | Except.ok _, Except.error _ => isFalse (by intro hc; cases hc)
  | Except.error _, Except.ok _ => isFalse (by intro hc; cases hc)

/-- Middle section (IV region plus AES ciphertext) of a concrete private
key block: 128 bytes. -/
def c2mid : List Nat := List.range 128

/-- Trailing signature of the concrete private key block, computed with the
test HMAC over exactly the bytes the C code feeds to HMAC (the 128 bytes
after the format byte, IV region included). -/
def c2sig : List Nat := testP.hmac (validationKey testP testC sess0.seed) c2mid

/-- A concrete 161-byte private key block (format byte 2, 16-byte IV
region, 112 bytes of ciphertext, 32-byte trailing signature) that the
unwrapper accepts. -/
def c2body : List Nat := 2 :: (c2mid ++ c2sig)

/-- A concrete ECDH block body (0x94 bytes): X little-endian 1 at offset 8,
Y = 0, signature length 0, no padding. -/
def body1ecdh : List Nat := List.replicate 8 0 ++ [1] ++ List.replicate 139 0

/-- Same shape as body1ecdh but with X = 2. -/
def body2ecdh : List Nat := List.replicate 8 0 ++ [2] ++ List.replicate 139 0

/-- Flash block carrying body1ecdh under id 6, with a stored hash matching
the test SHA-256 (32 copies of the body length 148). -/
def blk1 : Block := ⟨6, List.replicate 32 148, body1ecdh⟩

/-- Flash block carrying body2ecdh under id 6, also validly hashed. -/
def blk2 : Block := ⟨6, List.replicate 32 148, body2ecdh⟩

/-- A valid certificate block (id 3). -/
def blkA : Block := ⟨3, List.replicate 32 3, [9, 9, 9]⟩

/-- A corrupted private-key block (id 4): the stored hash (32 copies of 99)
differs from the test SHA-256 of the body (32 copies of 2). -/
def blkB : Block := ⟨4, List.replicate 32 99, [2, 2]⟩

/-- Payload holding [valid, corrupted, valid] blocks. -/
def payloadVCV : List Nat := encodeBlocks [blkA, blkB, blk1]

/-- A well-formed flash container holding exactly blk1. -/
def cont1 : List Nat :=
  [0, 0] ++ le32 (encodeBlocks [blk1]).length ++ [0, 0] ++ encodeBlocks [blk1]

/-- A well-formed flash container holding blk1 followed by blk2 (two valid
ECDH blocks with different X coordinates). -/
def cont2 : List Nat :=
  [0, 0] ++ le32 (encodeBlocks [blk1, blk2]).length ++ [0, 0] ++
    encodeBlocks [blk1, blk2]

/-- A 38-byte response whose provisioning byte is 0x02 (device not
provisioned). -/
def resp38bad : List Nat := List.replicate 37 0 ++ [2]

/-- A 38-byte response whose provisioning byte is 0x07 (provisioned). -/
def resp38good : List Nat := List.replicate 37 0 ++ [7]

/-! Helper lemmas. -/

theorem prfLoopF_zero (hmac : List Nat → List Nat → List Nat)
    (secret label seed : List Nat) (fuel : Nat) (A : List Nat) :
    prfLoopF hmac secret label seed fuel A 0 = [] := by
  cases fuel <;> simp [prfLoopF]

theorem prfSpecConcat_length (hmac : List Nat → List Nat → List Nat)
    (secret label seed : List Nat) (Hlen : ∀ k d, (hmac k d).length = 32) :
    ∀ n i, (prfSpecConcat hmac secret label seed i n).length = 32 * n := by
  intro n
  induction n with
  | zero => intro i; simp [prfSpecConcat]
  | succ n ih =>
    intro i
    simp only [prfSpecConcat, List.length_append, Hlen, ih]
    ring

theorem prfLoopF_eq (hmac : List Nat → List Nat → List Nat)
    (secret label seed : List Nat) (Hlen : ∀ k d, (hmac k d).length = 32) :
    ∀ n i fuel remaining, remaining ≤ 32 * n → remaining ≤ fuel →
    prfLoopF hmac secret label seed fuel
        (prfSpecA hmac secret label seed i) remaining =
      (prfSpecConcat hmac secret label seed i n).take remaining := by
  intro n
  induction n with
  | zero =>
    intro i fuel remaining h1 _
    have hr : remaining = 0 := by omega
    subst hr
    simp [prfLoopF_zero, prfSpecConcat]
  | succ n ih =>
    intro i fuel remaining h1 h2
    rcases Nat.eq_zero_or_pos remaining with hr | hr
    · subst hr
      simp [prfLoopF_zero]
    · cases fuel with
      | zero => omega
      | succ f =>
        have hB := Hlen secret (prfSpecA hmac secret label seed i ++ label ++ seed)
        have hrec : prfLoopF hmac secret label seed f
            (hmac secret (prfSpecA hmac secret label seed i))
            (remaining - min remaining 32) =
            (prfSpecConcat hmac secret label seed (i + 1) n).take
              (remaining - min remaining 32) := by
          have := ih (i + 1) f (remaining - min remaining 32) (by omega) (by omega)
          simpa [prfSpecA] using this
        simp only [prfLoopF, if_neg (by omega : ¬ remaining = 0), hrec]
        simp only [prfSpecConcat, List.take_append_eq_append_take, hB]
        by_cases h32 : 32 ≤ remaining
        · have hmin : min remaining 32 = 32 := by omega
          rw [hmin]
          congr 1
          · rw [List.take_of_length_le (by omega),
              List.take_of_length_le (by omega)]
        · have hmin : min remaining 32 = remaining := by omega
          rw [hmin]
          have hz : remaining - 32 = 0 := by omega
          have hz2 : remaining - remaining = 0 := by omega
          rw [hz, hz2]

theorem PRF_SHA256_length (hmac : List Nat → List Nat → List Nat)
    (secret label seed : List Nat) (L : Nat)
    (Hlen : ∀ k d, (hmac k d).length = 32) :
    (PRF_SHA256 hmac secret label seed L).length = L := by
  have hmain : PRF_SHA256 hmac secret label seed L =
      (prfSpecConcat hmac secret label seed 1 ((L + 31) / 32)).take L := by
    have h1 : L ≤ 32 * ((L + 31) / 32) := by omega
    have := prfLoopF_eq hmac secret label seed Hlen ((L + 31) / 32) 1 L L h1
      le_rfl
    simpa [PRF_SHA256, prfSpecA] using this
  rw [hmain, List.length_take,
    prfSpecConcat_length hmac secret label seed Hlen]
  omega

theorem leNat_le32 (n : Nat) (h : n < 4294967296) : leNat (le32 n) = n := by
  simp [leNat, le32]
  omega

theorem parseBlocksGo_nil (P : CryptoPrims) (C : Consts) (fuel : Nat)
    (s : Session) (log : List LogEvent) :
    parseBlocksGo P C fuel s log [] = (s, log, []) := by
  cases fuel <;> rfl

theorem parseBlocksGo_fuel (P : CryptoPrims) (C : Consts) :
    ∀ f1 f2 s log data, data.length ≤ f1 → data.length ≤ f2 →
    parseBlocksGo P C f1 s log data = parseBlocksGo P C f2 s log data := by
  intro f1
  induction f1 with
  | zero =>
    intro f2 s log data h1 _
    have hdata : data = [] := by
      cases data
      · rfl
      · simp at h1
    subst hdata
    rw [parseBlocksGo_nil, parseBlocksGo_nil]
  | succ f ih =>
    intro f2 s log data h1 h2
    match data with
    | [] => rw [parseBlocksGo_nil, parseBlocksGo_nil]
    | [a] =>
      cases f2 with
      | zero => simp at h2
      | succ g => rfl
    | [a, b] =>
      cases f2 with
      | zero => simp at h2
      | succ g => rfl
    | [a, b, c] =>
      cases f2 with
      | zero => simp at h2
      | succ g => rfl
    | a :: b :: c :: d :: rest2 =>
      cases f2 with
      | zero => simp at h2
      | succ g =>
        simp only [parseBlocksGo]
        have hrest : rest2.length + 4 = (a :: b :: c :: d :: rest2).length := by
          simp
        split_ifs with hid hshort hsha
        · rfl
        · rfl
        · exact ih g _ _ _ (by simp [List.length_drop]; omega)
            (by simp [List.length_drop]; omega)
        · exact ih g _ _ _ (by simp [List.length_drop]; omega)
            (by simp [List.length_drop]; omega)

theorem parseBlocksGo_step (P : CryptoPrims) (C : Consts) (fuel : Nat)
    (s : Session) (log : List LogEvent) (b : Block) (rest : List Nat)
    (hwf : b.WF) :
    parseBlocksGo P C (fuel + 1) s log (encodeBlock b ++ rest) =
      (if P.sha256 b.body = b.hash then
        parseBlocksGo P C fuel (dispatchBlock P C s b.id b.body).1
          (log ++ (dispatchBlock P C s b.id b.body).2) rest
      else
        parseBlocksGo P C fuel s (log ++ [LogEvent.hashMismatch b.id]) rest) := by
  obtain ⟨hid, hhash, hbody⟩ := hwf
  have hshape : encodeBlock b ++ rest =
      b.id % 256 :: (b.id / 256 % 256) :: (b.body.length % 256) ::
        (b.body.length / 256 % 256) :: (b.hash ++ (b.body ++ rest)) := by
    simp [encodeBlock, le16]
  rw [hshape]
  simp only [parseBlocksGo]
  have hid_eq : b.id % 256 + 256 * (b.id / 256 % 256) = b.id := by omega
  have hbs_eq : b.body.length % 256 + 256 * (b.body.length / 256 % 256) =
      b.body.length := by omega
  rw [hid_eq, hbs_eq]
  rw [if_neg (by omega : ¬ b.id = 65535)]
  rw [if_neg (by simp [hhash] : ¬ (b.hash ++ (b.body ++ rest)).length <
    32 + b.body.length)]
  have hdrop32 : (b.hash ++ (b.body ++ rest)).drop 32 = b.body ++ rest :=
    List.drop_left' hhash
  have htake32 : (b.hash ++ (b.body ++ rest)).take 32 = b.hash :=
    List.take_left' hhash
  have hbodyslice : ((b.hash ++ (b.body ++ rest)).drop 32).take b.body.length =
      b.body := by
    rw [hdrop32]
    exact List.take_left' rfl
  have hrest3 : (b.hash ++ (b.body ++ rest)).drop (32 + b.body.length) =
      rest := by
    rw [show b.hash ++ (b.body ++ rest) = (b.hash ++ b.body) ++ rest by simp]
    exact List.drop_left' (by simp [hhash, Nat.add_comm])
  rw [hbodyslice, htake32, hrest3]

theorem parseBlocksGo_encodeBlocks (P : CryptoPrims) (C : Consts) :
    ∀ bs fuel s log, (∀ b ∈ bs, b.WF) → (encodeBlocks bs).length ≤ fuel →
    (parseBlocksGo P C fuel s log (encodeBlocks bs)).2.2 = [] := by
  intro bs
  induction bs with
  | nil =>
    intro fuel s log _ _
    rw [show encodeBlocks [] = [] from rfl, parseBlocksGo_nil]
  | cons b bs ih =>
    intro fuel s log hwf hfuel
    have hb : b.WF := hwf b (by simp)
    have henc : encodeBlocks (b :: bs) = encodeBlock b ++ encodeBlocks bs := by
      simp [encodeBlocks]
    rw [henc] at hfuel ⊢
    have hlen : (encodeBlock b ++ encodeBlocks bs).length =
        36 + b.body.length + (encodeBlocks bs).length := by
      simp [encodeBlock, le16, hb.2.1]
      omega
    cases fuel with
    | zero => omega
    | succ f =>
      rw [parseBlocksGo_step P C f s log b (encodeBlocks bs) hb]
      split_ifs
      · exact ih f _ _ (fun x hx => hwf x (by simp [hx])) (by omega)
      · exact ih f _ _ (fun x hx => hwf x (by simp [hx])) (by omega)

theorem optSetTrans {α : Type} {a b c : Option α}
    (h1 : c = b ∨ ∃ k, c = some k) (h2 : b = a ∨ ∃ k, b = some k) :
    c = a ∨ ∃ k, c = some k := by
  rcases h1 with h1 | ⟨k, h1⟩
  · rcases h2 with h2 | ⟨k, h2⟩
    · exact Or.inl (h1.trans h2)
    · exact Or.inr ⟨k, h1.trans h2⟩
  · exact Or.inr ⟨k, h1⟩

theorem init_private_key_fst (P : CryptoPrims) (C : Consts) (s : Session)
    (body : List Nat) :
    (init_private_key P C s body).1 =
      if unwrapChecks P C s.seed body then
        { s with private_key := some ⟨unwrapX P C s.seed body,
            unwrapY P C s.seed body, some (unwrapD P C s.seed body)⟩ }
      else s := by
  unfold init_private_key unwrapChecks
  split_ifs <;> simp_all <;> split_ifs <;> simp_all

theorem init_private_key_snd_or (P : CryptoPrims) (C : Consts) (s : Session)
    (body : List Nat) :
    (init_private_key P C s body).1 = s ∨
      (init_private_key P C s body).1 =
        { s with private_key := some ⟨unwrapX P C s.seed body,
            unwrapY P C s.seed body, some (unwrapD P C s.seed body)⟩ } := by
  rw [init_private_key_fst]
  split_ifs <;> simp

theorem check_ecdh_fst (P : CryptoPrims) (C : Consts) (s : Session)
    (body : List Nat) :
    (check_ecdh P C s body).1 =
      if P.setAffineOk (ecdhX body) (ecdhY body) then
        { s with ecdh_q := some ⟨ecdhX body, ecdhY body, none⟩ }
      else s := by
  unfold check_ecdh
  split_ifs <;> simp_all

theorem dispatchBlock_keys (P : CryptoPrims) (C : Consts) (s : Session)
    (id : Nat) (body : List Nat) :
    ((dispatchBlock P C s id body).1.private_key = s.private_key ∨
      ∃ k, (dispatchBlock P C s id body).1.private_key = some k) ∧
    ((dispatchBlock P C s id body).1.ecdh_q = s.ecdh_q ∨
      ∃ k, (dispatchBlock P C s id body).1.ecdh_q = some k) := by
  unfold dispatchBlock
  split_ifs with h0 h3 h4 h6
  · simp
  · simp
  · rcases init_private_key_snd_or P C s body with h | h <;> rw [h] <;> simp
  · rw [check_ecdh_fst]
    split_ifs <;> simp
  · simp

theorem parseBlocksGo_keys (P : CryptoPrims) (C : Consts) :
    ∀ fuel s log data,
    ((parseBlocksGo P C fuel s log data).1.private_key = s.private_key ∨
      ∃ k, (parseBlocksGo P C fuel s log data).1.private_key = some k) ∧
    ((parseBlocksGo P C fuel s log data).1.ecdh_q = s.ecdh_q ∨
      ∃ k, (parseBlocksGo P C fuel s log data).1.ecdh_q = some k) := by
  intro fuel
  induction fuel with
  | zero =>
    intro s log data
    cases data <;> exact ⟨Or.inl rfl, Or.inl rfl⟩
  | succ f ih =>
    intro s log data
    match data with
    | [] => exact ⟨Or.inl rfl, Or.inl rfl⟩
    | [a] => exact ⟨Or.inl rfl, Or.inl rfl⟩
    | [a, b] => exact ⟨Or.inl rfl, Or.inl rfl⟩
    | [a, b, c] => exact ⟨Or.inl rfl, Or.inl rfl⟩
    | a :: b :: c :: d :: rest2 =>
      simp only [parseBlocksGo]
      split_ifs with hid hshort hsha
      · exact ⟨Or.inl rfl, Or.inl rfl⟩
      · exact ⟨Or.inl rfl, Or.inl rfl⟩
      · have hd := dispatchBlock_keys P C s (a + 256 * b)
          ((rest2.drop 32).take (c + 256 * d))
        have hr := ih (dispatchBlock P C s (a + 256 * b)
            ((rest2.drop 32).take (c + 256 * d))).1
          (log ++ (dispatchBlock P C s (a + 256 * b)
            ((rest2.drop 32).take (c + 256 * d))).2)
          (rest2.drop (32 + (c + 256 * d)))
        exact ⟨optSetTrans hr.1 hd.1, optSetTrans hr.2 hd.2⟩
      · exact ih s _ _

end Vfs0097

namespace Vfs0097

/-! Claim theorems. -/

/-- C1: PRF_SHA256 implements the RFC 5246 P_hash expansion: for every
secret, label, seed and requested length L (including L not a multiple of
32), the output equals the concatenation of HMAC(secret, A(i) ++ label ++
seed) for i = 1, 2, ... truncated to exactly L bytes, with A(0) = label ++
seed and A(i) = HMAC(secret, A(i-1)); the output length is exactly L, and
the function is deterministic (two invocations on the same inputs are
identical).  The single hypothesis is that the HMAC primitive returns
32-byte digests, which is what HMAC-SHA256 does. -/
theorem c1_prf_phash (hmac : List Nat → List Nat → List Nat)
    (secret label seed : List Nat) (L : Nat)
    (Hlen : ∀ k d, (hmac k d).length = 32) :
    PRF_SHA256 hmac secret label seed L = PRF_spec hmac secret label seed L ∧
    (PRF_SHA256 hmac secret label seed L).length = L ∧
    PRF_SHA256 hmac secret label seed L = PRF_SHA256 hmac secret label seed L := by
  refine ⟨?_, PRF_SHA256_length hmac secret label seed L Hlen, rfl⟩
  have h1 : L ≤ 32 * ((L + 31) / 32) := by omega
  have := prfLoopF_eq hmac secret label seed Hlen ((L + 31) / 32) 1 L L h1
    le_rfl
  simpa [PRF_SHA256, PRF_spec, prfSpecA] using this

/-- Witness for C1 at a concrete instance: the test HMAC (always 32 bytes),
secret [1], label [2], seed [3], and the non-multiple-of-32 length 33. -/
theorem c1_prf_phash_witness :
    PRF_SHA256 testP.hmac [1] [2] [3] 33 = PRF_spec testP.hmac [1] [2] [3] 33 ∧
    (PRF_SHA256 testP.hmac [1] [2] [3] 33).length = 33 := by
  have h := c1_prf_phash testP.hmac [1] [2] [3] 33
    (by
      intro k d
      simp [testP, List.length_take]
      omega)
  exact ⟨h.1, h.2.1⟩

set_option maxRecDepth 100000 in
/-- Counterexample for C2: the unwrapper's HMAC input (`macInput`, exactly
the bytes the C code hashes at vfs0097.c:239) is not the claim's "ciphertext
minus trailing signature minus 16-byte IV region" (`macInputClaimed`).  On
the concrete accepted block `c2body` the unwrapper verifies the MAC and
installs a key even though the HMAC over the claim's byte range does not
match the stored trailing signature — so the verified MAC must cover the IV
region as well. -/
theorem c2_mac_coverage_cex :
    macInput c2body ≠ macInputClaimed c2body ∧
    (init_private_key testP testC sess0 c2body).1.private_key.isSome = true ∧
    testP.hmac (validationKey testP testC sess0.seed) (macInputClaimed c2body) ≠
      storedMac c2body := by
  decide

/-- C2 (amended): the trailing 32-byte signature that the unwrapper
verifies covers all preceding ciphertext bytes except only the 1-byte
format byte — the 16-byte IV region is included: for every block body of
the form fb :: (iv ++ ct ++ sig) with a 16-byte iv and a 32-byte sig, the
recomputed HMAC is taken over exactly iv ++ ct and compared against sig,
and whenever the unwrapper installs a key the HMAC over iv ++ ct equals
sig. -/
theorem c2_mac_covers_iv (P : CryptoPrims) (C : Consts) (s : Session)
    (fb : Nat) (iv ct sig : List Nat)
    (h16 : iv.length = 16) (h32 : sig.length = 32) :
    macInput (fb :: (iv ++ ct ++ sig)) = iv ++ ct ∧
    storedMac (fb :: (iv ++ ct ++ sig)) = sig ∧
    ((init_private_key P C s (fb :: (iv ++ ct ++ sig))).1 ≠ s →
      P.hmac (validationKey P C s.seed) (iv ++ ct) = sig) := by
  have hmac_in : macInput (fb :: (iv ++ ct ++ sig)) = iv ++ ct := by
    have hidx : (fb :: (iv ++ ct ++ sig)).length - 1 - 32 =
        iv.length + ct.length := by
      simp only [List.length_cons, List.length_append, h32]
      omega
    unfold macInput
    rw [hidx]
    have hd : (fb :: (iv ++ ct ++ sig)).drop 1 = iv ++ ct ++ sig := rfl
    rw [hd]
    exact List.take_left' (by simp)
  have hstored : storedMac (fb :: (iv ++ ct ++ sig)) = sig := by
    have hidx : (fb :: (iv ++ ct ++ sig)).length - 32 =
        1 + (iv.length + ct.length) := by
      simp only [List.length_cons, List.length_append, h32]
      omega
    unfold storedMac
    rw [hidx]
    have hd : (fb :: (iv ++ ct ++ sig)).drop (1 + (iv.length + ct.length)) =
        (iv ++ ct ++ sig).drop (iv.length + ct.length) := by
      rw [Nat.add_comm 1 (iv.length + ct.length), List.drop_succ_cons]
    rw [hd]
    exact List.drop_left' (by simp)
  refine ⟨hmac_in, hstored, ?_⟩
  intro hne
  by_cases hc : unwrapChecks P C s.seed (fb :: (iv ++ ct ++ sig))
  · have := hc
    unfold unwrapChecks at this
    simp only [Bool.and_eq_true, beq_iff_eq] at this
    have hm := this.1.1.1.1.1.1.2
    rw [hmac_in, hstored] at hm
    exact hm
  · rw [init_private_key_fst, if_neg hc] at hne
    exact absurd rfl hne

/-- Witness for C2 (amended) at a concrete block: a 16-byte IV region of
ones, a 1-byte ciphertext and a 32-byte signature of nines. -/
theorem c2_mac_covers_iv_witness :
    macInput (2 :: (List.replicate 16 1 ++ [5] ++ List.replicate 32 9)) =
      List.replicate 16 1 ++ [5] ∧
    storedMac (2 :: (List.replicate 16 1 ++ [5] ++ List.replicate 32 9)) =
      List.replicate 32 9 := by
  have h := c2_mac_covers_iv testP testC sess0 2 (List.replicate 16 1) [5]
    (List.replicate 32 9) (by decide) (by decide)
  exact ⟨h.1, h.2.1⟩

/-- C4: the certificate/ECDH validator installs the X/Y public key parsed
from the block as the session's ECDH public key regardless of the outcome
of the ECDSA signature verification against the manufacturer key (the key
is installed as soon as the affine-coordinate construction succeeds, before
the signature is even read), and a failing verification is only logged. -/
theorem c4_ecdh_installed (P : CryptoPrims) (C : Consts) (s : Session)
    (body : List Nat)
    (haff : P.setAffineOk (ecdhX body) (ecdhY body) = true) :
    (check_ecdh P C s body).1 =
      { s with ecdh_q := some ⟨ecdhX body, ecdhY body, none⟩ } ∧
    (P.deviceKeySetOk = true →
      P.ecdsaVerify (P.sha256 (body.take 144)) (ecdhSig body) = 0 →
      LogEvent.untrustedDevice ∈ (check_ecdh P C s body).2) := by
  constructor
  · rw [check_ecdh_fst, if_pos haff]
  · intro hdev hv
    unfold check_ecdh
    simp [haff, hdev, hv]

set_option maxRecDepth 100000 in
/-- Witness for C4 at the concrete ECDH body with X = 1, Y = 0 and the test
primitives (whose ECDSA verification reports cryptographic rejection): the
key is installed and the rejection is only logged. -/
theorem c4_ecdh_installed_witness :
    (check_ecdh testP testC sess0 body1ecdh).1 =
      { sess0 with ecdh_q := some ⟨1, 0, none⟩ } ∧
    LogEvent.untrustedDevice ∈ (check_ecdh testP testC sess0 body1ecdh).2 := by
  have h := c4_ecdh_installed testP testC sess0 body1ecdh (by decide)
  have hx : ecdhX body1ecdh = 1 := by decide
  have hy : ecdhY body1ecdh = 0 := by decide
  refine ⟨?_, h.2 (by decide) (by decide)⟩
  rw [h.1, hx, hy]

/-- C5: the private key unwrapper is atomic on failure: a block whose
format byte is not 2, or whose recomputed HMAC differs from the stored
trailing 32-byte signature, leaves the session untouched with only a
warning logged (non-fatal), and the session state after the unwrapper is
either exactly the input state or the input state with the decoded X/Y/D
key pair installed — the installation happens exactly when every check
passes (`unwrapChecks`). -/
theorem c5_unwrap_atomic (P : CryptoPrims) (C : Consts) (s : Session)
    (body : List Nat) :
    (body.getD 0 0 ≠ 2 →
      init_private_key P C s body = (s, [LogEvent.unknownKeyFormat])) ∧
    (body.getD 0 0 = 2 →
      P.hmac (validationKey P C s.seed) (macInput body) ≠ storedMac body →
      init_private_key P C s body = (s, [LogEvent.pairedElsewhere])) ∧
    (init_private_key P C s body).1 =
      (if unwrapChecks P C s.seed body then
        { s with private_key := some ⟨unwrapX P C s.seed body,
            unwrapY P C s.seed body, some (unwrapD P C s.seed body)⟩ }
      else s) := by
  refine ⟨?_, ?_, init_private_key_fst P C s body⟩
  · intro h
    unfold init_private_key
    rw [if_pos h]
  · intro h1 h2
    unfold init_private_key
    rw [if_neg (not_not_intro h1), if_pos h2]

set_option maxRecDepth 100000 in
/-- Witness for C5: a block with format byte 3 is rejected before any
decryption, and a correctly-formatted block with a wrong trailing signature
is rejected at the signature check; both leave the session untouched. -/
theorem c5_unwrap_atomic_witness :
    init_private_key testP testC sess0 [3] =
      (sess0, [LogEvent.unknownKeyFormat]) ∧
    init_private_key testP testC sess0 (2 :: (1 :: List.replicate 159 0)) =
      (sess0, [LogEvent.pairedElsewhere]) := by
  refine ⟨(c5_unwrap_atomic testP testC sess0 [3]).1 (by decide),
    (c5_unwrap_atomic testP testC sess0
      (2 :: (1 :: List.replicate 159 0))).2.1 (by decide) (by decide)⟩

/-- Counterexample for C3: at CHECK_INITIALIZED with a response of length 1
(not 38), the handler's action is a warn-plus-break, which is not the
action of the SEND_INIT_2 state (issuing INIT_SEQUENCE_MSG2), and the run
of the whole machine stalls at CHECK_INITIALIZED instead of continuing —
the claimed fall-through to SEND_INIT_2 does not happen (the `else` branch
at vfs0097.c:576-580 ends in `break`). -/
theorem c3_fallthrough_cex :
    init_ssm_step testC InitState.CHECK_INIT [0] =
      SsmAction.warnBreak "Unknown reply at init" ∧
    init_ssm_step testC InitState.CHECK_INIT [0] ≠
      init_ssm_step testC InitState.SEND_INIT_2 [0] ∧
    runInit testP testC sess0 [[0]] =
      RunResult.stalled InitState.CHECK_INIT { sess0 with buffer := [0] } := by
  refine ⟨by decide, by decide, by decide⟩

/-- C3 (amended): at CHECK_INITIALIZED, a response whose length is not 38
bytes makes the handler log "Unknown reply at init" and break out of the
switch without failing and without advancing: no transition is triggered
and the initialization machine stalls at CHECK_INITIALIZED (it does not
fall through to SEND_INIT_2; only the 38-byte success path falls through
into the SEND_INIT_2 code). -/
theorem c3_unknown_reply_stalls (P : CryptoPrims) (C : Consts) (s : Session)
    (r : List Nat) (rest : List (List Nat)) (h : r.length ≠ 38) :
    init_ssm_step C InitState.CHECK_INIT r =
      SsmAction.warnBreak "Unknown reply at init" ∧
    runInit P C s (r :: rest) =
      RunResult.stalled InitState.CHECK_INIT { s with buffer := r } := by
  constructor
  · unfold init_ssm_step
    rw [if_neg h]
  · simp [runInit, runInitGo, init_ssm_step, nextState, h]

/-- Witness for C3 (amended) at a concrete length-1 response. -/
theorem c3_unknown_reply_stalls_witness :
    init_ssm_step testC InitState.CHECK_INIT [9] =
      SsmAction.warnBreak "Unknown reply at init" ∧
    runInit testP testC sess0 [[9]] =
      RunResult.stalled InitState.CHECK_INIT { sess0 with buffer := [9] } :=
  c3_unknown_reply_stalls testP testC sess0 [9] [] (by decide)

/-- C6: at CHECK_INITIALIZED, a 38-byte response whose last byte is not
0x07 makes the machine fail fatally with "Device is not initialized",
propagated through the run to the open-completion result, without
proceeding past the check state; a 38-byte response whose last byte is 0x07
continues initialization (the handler falls through and issues
INIT_SEQUENCE_MSG2). -/
theorem c6_check_init (P : CryptoPrims) (C : Consts) (s : Session)
    (script : List (List Nat)) (r : List Nat)
    (hseed : s.seed ≠ []) (hlen : r.length = 38) :
    (r.getD 37 0 ≠ 7 →
      dev_open P C s (r :: script) =
        RunResult.failed "Device is not initialized") ∧
    (r.getD 37 0 = 7 →
      init_ssm_step C InitState.CHECK_INIT r = SsmAction.execCommand C.msg2) := by
  constructor
  · intro h7
    unfold dev_open
    rw [if_neg (by simp [hseed])]
    have h37 : (37 : Nat) < r.length := by omega
    rw [List.getD_eq_getElem r 0 h37] at h7
    simp [runInit, runInitGo, init_ssm_step, nextState, hlen, h7]
  · intro h7
    unfold init_ssm_step
    rw [if_pos hlen, hlen]
    exact if_neg (not_not_intro h7)

/-- Witness for C6: a 38-byte response ending in 0x02 fails the open with
"Device is not initialized"; a 38-byte response ending in 0x07 makes the
check state issue INIT_SEQUENCE_MSG2. -/
theorem c6_check_init_witness :
    dev_open testP testC sess0 [resp38bad] =
      RunResult.failed "Device is not initialized" ∧
    init_ssm_step testC InitState.CHECK_INIT resp38good =
      SsmAction.execCommand testC.msg2 := by
  have h1 := c6_check_init testP testC sess0 [resp38bad] resp38bad
    (by decide) (by decide)
  have h2 := c6_check_init testP testC sess0 [] resp38good
    (by decide) (by decide)
  exact ⟨h1.1 (by decide), h2.2 (by decide)⟩

set_option maxRecDepth 1000000 in
/-- C7: a block whose recomputed SHA-256 digest differs from its stored
32-byte hash is skipped with a warning and has no effect on session state,
and parsing of subsequent blocks continues (first conjunct: the parse of a
corrupted block followed by `rest` equals the parse of `rest` from the
unchanged state, with only the warning appended); a block identifier of
0xFFFF terminates parsing early (second conjunct); and the concrete
container holding [valid certificate block, corrupted private-key block,
valid ECDH block] produces exactly the two valid blocks' effects (third
conjunct). -/
theorem c7_hash_mismatch_skip (P : CryptoPrims) (C : Consts) (fuel : Nat)
    (s : Session) (log : List LogEvent) (b : Block) (rest : List Nat)
    (hwf : b.WF) (hm : P.sha256 b.body ≠ b.hash) (hf : rest.length ≤ fuel) :
    parseBlocksGo P C (fuel + 1) s log (encodeBlock b ++ rest) =
      parseBlocksGo P C rest.length s
        (log ++ [LogEvent.hashMismatch b.id]) rest ∧
    (∀ n r2, n < 65536 →
      parseBlocksGo P C (fuel + 1) s log ([255, 255] ++ le16 n ++ r2) =
        (s, log, r2)) ∧
    parseBlocksGo testP testC payloadVCV.length sess0 [] payloadVCV =
      ({ sess0 with
          certificate := some [9, 9, 9]
          ecdh_q := some ⟨1, 0, none⟩ },
       [LogEvent.hashMismatch 4, LogEvent.untrustedDevice], []) := by
  refine ⟨?_, ?_, ?_⟩
  · rw [parseBlocksGo_step P C fuel s log b rest hwf, if_neg hm]
    exact parseBlocksGo_fuel P C fuel rest.length s
      (log ++ [LogEvent.hashMismatch b.id]) rest hf le_rfl
  · intro n r2 _
    show parseBlocksGo P C (fuel + 1) s log
      (255 :: 255 :: (n % 256) :: (n / 256 % 256) :: r2) = (s, log, r2)
    simp only [parseBlocksGo]
    rw [if_pos (by norm_num)]
  · decide

/-- Witness for C7 at concrete inputs: the corrupted block blkB followed by
an empty remainder is skipped with a hash-mismatch warning, and a 0xffff
terminator stops parsing leaving the trailing bytes unconsumed. -/
theorem c7_hash_mismatch_skip_witness :
    parseBlocksGo testP testC 1 sess0 [] (encodeBlock blkB ++ []) =
      parseBlocksGo testP testC 0 sess0 [LogEvent.hashMismatch 4] [] ∧
    parseBlocksGo testP testC 1 sess0 [] ([255, 255] ++ le16 0 ++ [1, 2, 3]) =
      (sess0, [], [1, 2, 3]) := by
  have h := c7_hash_mismatch_skip testP testC 0 sess0 [] blkB []
    (by decide) (by decide) (by decide)
  exact ⟨h.1, h.2.1 0 [1, 2, 3] (by decide)⟩

/-- C8: a flash container whose remaining bytes after the 8-byte header do
not exactly equal the declared 4-byte little-endian payload size is
rejected by the `g_assert` (an unconditional fault, modelled as
Except.error); and for a well-formed container — any 2-byte prefix, the
little-endian length of a serialized block sequence, 2 more skipped bytes,
then exactly that block sequence — parsing succeeds and consumes the whole
declared payload (the unconsumed remainder is empty, so the bytes consumed
equal the declared size exactly). -/
theorem c8_container_size (P : CryptoPrims) (C : Consts) (s : Session)
    (pre2 post2 : List Nat) (bs : List Block) :
    (8 ≤ s.buffer.length →
      leNat ((s.buffer.drop 2).take 4) ≠ s.buffer.length - 8 →
      init_keys P C s = Except.error "assertion failed: remaining == size") ∧
    (pre2.length = 2 → post2.length = 2 → (∀ b ∈ bs, b.WF) →
      (encodeBlocks bs).length < 4294967296 →
      s.buffer = pre2 ++ le32 (encodeBlocks bs).length ++ post2 ++
        encodeBlocks bs →
      ∃ s2 log2, init_keys P C s = Except.ok (s2, log2, [])) := by
  constructor
  · intro h8 hne
    unfold init_keys
    rw [if_neg (by omega), if_neg (fun hc => hne hc.symm)]
  · intro hpre hpost hwf hsize hbuf
    have hlen_buf : s.buffer.length = 8 + (encodeBlocks bs).length := by
      rw [hbuf]
      simp only [List.length_append, le32, List.length_cons, List.length_nil]
      omega
    have h4 : (le32 (encodeBlocks bs).length).length = 4 := by
      simp [le32]
    have hslice : (s.buffer.drop 2).take 4 = le32 (encodeBlocks bs).length := by
      rw [hbuf, List.append_assoc, List.append_assoc,
        List.drop_left' hpre, ← List.append_assoc]
      exact List.take_left' h4
    have hdrop8 : s.buffer.drop 8 = encodeBlocks bs := by
      rw [hbuf]
      exact List.drop_left' (by simp [le32, hpre, hpost])
    unfold init_keys
    rw [if_neg (by omega), hslice, leNat_le32 _ hsize, if_pos (by omega),
      hdrop8]
    have hrem := parseBlocksGo_encodeBlocks P C bs (s.buffer.length - 8) s []
      hwf (by omega)
    refine ⟨(parseBlocksGo P C (s.buffer.length - 8) s [] (encodeBlocks bs)).1,
      (parseBlocksGo P C (s.buffer.length - 8) s [] (encodeBlocks bs)).2.1, ?_⟩
    rw [← hrem]

set_option maxRecDepth 1000000 in
/-- Witness for C8: a container declaring 5 payload bytes but holding none
faults at the assert, and the concrete single-block container cont1 parses
with an empty remainder. -/
theorem c8_container_size_witness :
    init_keys testP testC { sess0 with buffer := [0, 0, 5, 0, 0, 0, 0, 0] } =
      Except.error "assertion failed: remaining == size" ∧
    ∃ s2 log2, init_keys testP testC { sess0 with buffer := cont1 } =
      Except.ok (s2, log2, []) := by
  constructor
  · exact (c8_container_size testP testC
      { sess0 with buffer := [0, 0, 5, 0, 0, 0, 0, 0] } [] [] []).1
      (by decide) (by decide)
  · exact (c8_container_size testP testC { sess0 with buffer := cont1 }
      [0, 0] [0, 0] [blk1]).2 (by decide) (by decide) (by decide) (by decide)
      (by decide)

set_option maxRecDepth 1000000 in
/-- Counterexample for C9: within a single init_keys block-parsing run, an
ECDH key installed by one valid block is replaced by a later valid block of
the same id: parsing blk1 alone installs the key with X = 1, while parsing
blk1 followed by blk2 ends with the key with X = 2 — the first key did not
stay immutable for the session's lifetime. -/
theorem c9_key_replaced_cex :
    (parseBlocksGo testP testC 184 sess0 [] (encodeBlock blk1)).1.ecdh_q =
      some ⟨1, 0, none⟩ ∧
    (parseBlocksGo testP testC 368 sess0 []
        (encodeBlock blk1 ++ encodeBlock blk2)).1.ecdh_q =
      some ⟨2, 0, none⟩ ∧
    (⟨1, 0, none⟩ : ECKey) ≠ ⟨2, 0, none⟩ := by
  refine ⟨by decide, by decide, by decide⟩

/-- C9 (amended): once the private key or the ECDH key has been set it is
never un-set during block parsing — each of the two fields is either left
exactly as it was or holds some installed key after any parsing run (so a
set key can only be replaced by a later successfully validated block of the
same kind, never cleared) — and both keys are released (set to none) only
by clear_data on close. -/
theorem c9_keys_monotone (P : CryptoPrims) (C : Consts) (fuel : Nat)
    (s : Session) (log : List LogEvent) (data : List Nat) :
    ((parseBlocksGo P C fuel s log data).1.private_key = s.private_key ∨
      ∃ k, (parseBlocksGo P C fuel s log data).1.private_key = some k) ∧
    ((parseBlocksGo P C fuel s log data).1.ecdh_q = s.ecdh_q ∨
      ∃ k, (parseBlocksGo P C fuel s log data).1.ecdh_q = some k) ∧
    (clear_data s).private_key = none ∧ (clear_data s).ecdh_q = none :=
  ⟨(parseBlocksGo_keys P C fuel s log data).1,
   (parseBlocksGo_keys P C fuel s log data).2, rfl, rfl⟩

/-- C10: device construction always sets the seed to the same fixed 13-byte
string (the char array "VirtualBox\0" "0" with its terminating NUL),
independent of the host machine, so the derived AES master key and
validation key are byte-for-byte identical for every session on every
host. -/
theorem c10_seed_constant (P : CryptoPrims) (C : Consts)
    (h1 h2 : HostInfo) :
    (fpi_device_vfs0097_init h1).seed = vfs0097_seed ∧
    vfs0097_seed.length = 13 ∧
    (fpi_device_vfs0097_init h1).seed = (fpi_device_vfs0097_init h2).seed ∧
    aesMasterKey P C (fpi_device_vfs0097_init h1).seed =
      aesMasterKey P C (fpi_device_vfs0097_init h2).seed ∧
    validationKey P C (fpi_device_vfs0097_init h1).seed =
      validationKey P C (fpi_device_vfs0097_init h2).seed :=
  ⟨rfl, rfl, rfl, rfl, rfl⟩

end Vfs0097
